import Mathlib

/-!
Verification of the spatial collision and entity-pose synchronization subsystem
of the `nodas` engine (`src/engine/src/render/model/geometry.rs`,
`src/engine/src/world.rs`, `src/engine/src/transform.rs`).

Modelling conventions:
* `f32` scalars are embedded as exact rationals (`ℚ`).  None of the verified
  claims concerns rounding behaviour; they are structural properties of the
  algorithms.
* Rotations are embedded as quaternions with rational components (the
  quaternion sandwich action is a polynomial map, hence exact on `ℚ`).  The
  only transcendental step of the source — evaluating `cos`/`sin` of Euler
  angles inside `Transform::isometry` — is abstracted by a `Trig` record of
  two functions; every theorem quantifies over it, so it covers the real
  `cos`/`sin` in particular.
* External library state (`ncollide3d`'s `BVT`, `TriMesh`, `CollisionWorld`;
  `legion`'s entity store) is embedded following the library's actual
  behaviour as used by the repository: the BVT's `new_balanced` builds the
  flattened leaf array in kd-median partition order (left subtree first),
  `TriMesh` is a point/triangle-index list whose AABB is the union of its
  triangles' AABBs, and the collision world is a slab of collision objects
  whose handles are, in the absence of removals (none exist in this
  repository), consecutive indices.
-/

namespace Nodas

/-- A 3-vector with rational components (embedding of `nalgebra::Vector3<f32>`
and `Point3<f32>`). -/
structure Vec3 where
  x : ℚ
  y : ℚ
  z : ℚ
  deriving DecidableEq, Repr

instance : Inhabited Vec3 := ⟨⟨0, 0, 0⟩⟩

/-- Componentwise addition. -/
def Vec3.add (a b : Vec3) : Vec3 := ⟨a.x + b.x, a.y + b.y, a.z + b.z⟩

/-- Componentwise subtraction. -/
def Vec3.sub (a b : Vec3) : Vec3 := ⟨a.x - b.x, a.y - b.y, a.z - b.z⟩

/-- Componentwise multiplication; this is `nalgebra`'s `component_mul`, the
operation `ncollide3d::shape::TriMesh::scaled` applies to every vertex. -/
def Vec3.cmul (k v : Vec3) : Vec3 := ⟨k.x * v.x, k.y * v.y, k.z * v.z⟩

/-- Dot product. -/
def Vec3.dot (a b : Vec3) : ℚ := a.x * b.x + a.y * b.y + a.z * b.z

/-- Cross product. -/
def Vec3.cross (a b : Vec3) : Vec3 :=
  ⟨a.y * b.z - a.z * b.y, a.z * b.x - a.x * b.z, a.x * b.y - a.y * b.x⟩

/-- Componentwise minimum. -/
def Vec3.inf (a b : Vec3) : Vec3 := ⟨min a.x b.x, min a.y b.y, min a.z b.z⟩

/-- Componentwise maximum. -/
def Vec3.sup (a b : Vec3) : Vec3 := ⟨max a.x b.x, max a.y b.y, max a.z b.z⟩

/-- Coordinate selector: `v[0], v[1], v[2]` of `nalgebra`. -/
def Vec3.coord (v : Vec3) : Nat → ℚ
  | 0 => v.x
  | 1 => v.y
  | _ => v.z

/-- Axis-aligned bounding box (`ncollide3d::bounding_volume::AABB<f32>`). -/
structure Aabb where
  mins : Vec3
  maxs : Vec3
  deriving DecidableEq, Repr

instance : Inhabited Aabb := ⟨⟨default, default⟩⟩

/-- `AABB::merged`: the smallest AABB enclosing both arguments. -/
def Aabb.merged (a b : Aabb) : Aabb := ⟨a.mins.inf b.mins, a.maxs.sup b.maxs⟩

/-- `AABB::center`. -/
def Aabb.center (a : Aabb) : Vec3 :=
  ⟨(a.mins.x + a.maxs.x) / 2, (a.mins.y + a.maxs.y) / 2, (a.mins.z + a.maxs.z) / 2⟩

/-- The extents (side lengths) of an AABB. -/
def Aabb.extents (a : Aabb) : Vec3 := a.maxs.sub a.mins

/-- Smallest AABB containing a list of points (the per-triangle and merged
bounds used by `ncollide3d`); junk on the empty list, where the source
library has no finite answer. -/
def aabbOfPoints : List Vec3 → Aabb
  | [] => ⟨⟨0, 0, 0⟩, ⟨0, 0, 0⟩⟩
  | p :: ps => ps.foldl (fun ab q => ⟨ab.mins.inf q, ab.maxs.sup q⟩) ⟨p, p⟩

/-- Quaternion with rational components.  `nalgebra`'s `UnitQuaternion<f32>`
values are embedded as the underlying quaternion data. -/
structure Quat where
  w : ℚ
  x : ℚ
  y : ℚ
  z : ℚ
  deriving DecidableEq, Repr

/-- The identity rotation. -/
def Quat.one : Quat := ⟨1, 0, 0, 0⟩

instance : Inhabited Quat := ⟨Quat.one⟩

/-- Hamilton product. -/
def Quat.mul (p q : Quat) : Quat :=
  ⟨p.w * q.w - p.x * q.x - p.y * q.y - p.z * q.z,
   p.w * q.x + p.x * q.w + p.y * q.z - p.z * q.y,
   p.w * q.y - p.x * q.z + p.y * q.w + p.z * q.x,
   p.w * q.z + p.x * q.y - p.y * q.x + p.z * q.w⟩

/-- Conjugate quaternion; for unit quaternions this is the inverse rotation,
which is how `nalgebra` inverts a `UnitQuaternion`. -/
def Quat.conj (q : Quat) : Quat := ⟨q.w, -q.x, -q.y, -q.z⟩

/-- Squared norm. -/
def Quat.normSq (q : Quat) : ℚ := q.w * q.w + q.x * q.x + q.y * q.y + q.z * q.z

/-- Rotation action `q v q⁻¹` of a quaternion on a vector (normalised by the
squared norm so that unit quaternions act as rotations; `ℚ` division by zero
yields the zero vector on the degenerate zero quaternion). -/
def Quat.rotate (q : Quat) (v : Vec3) : Vec3 :=
  let p := (q.mul ⟨0, v.x, v.y, v.z⟩).mul q.conj
  let n := q.normSq
  ⟨p.x / n, p.y / n, p.z / n⟩

/-- Isometry (`ncollide3d::math::Isometry<f32>` = rotation plus translation). -/
structure Iso where
  rot : Quat
  trans : Vec3
  deriving DecidableEq, Repr

/-- The identity isometry. -/
def Iso.id : Iso := ⟨Quat.one, ⟨0, 0, 0⟩⟩

instance : Inhabited Iso := ⟨Iso.id⟩

/-- `Isometry::inverse_transform_point`: undo translation, then rotate by the
inverse rotation. -/
def Iso.invPoint (m : Iso) (p : Vec3) : Vec3 := m.rot.conj.rotate (p.sub m.trans)

/-- `Isometry::inverse_transform_vector`: rotate by the inverse rotation. -/
def Iso.invVector (m : Iso) (v : Vec3) : Vec3 := m.rot.conj.rotate v

/-- Triangle mesh (`ncollide3d::shape::TriMesh<f32>` as constructed by
`Geometry::new`): vertex positions, triangle index triples, and optional
texture coordinates.  The deformation/adjacency machinery of the library is
unused by the repository and not modelled. -/
structure TriMesh where
  points : List Vec3
  indices : List (Nat × Nat × Nat)
  uvs : Option (List (ℚ × ℚ))
  deriving DecidableEq, Repr

instance : Inhabited TriMesh := ⟨⟨[], [], none⟩⟩

/-- Vertex lookup; the Rust source indexes the vertex buffer directly and
panics out of bounds, which never happens for meshes whose indices are in
range — we default to the origin. -/
def TriMesh.pt (tm : TriMesh) (i : Nat) : Vec3 := tm.points.getD i ⟨0, 0, 0⟩

/-- `TriMesh::scaled(&scale)`: every vertex position is multiplied
componentwise by the scale vector; the topology is unchanged and the
bounding data is rebuilt from the new points. -/
def TriMesh.scaled (tm : TriMesh) (scale : Vec3) : TriMesh :=
  { tm with points := tm.points.map (Vec3.cmul scale) }

/-- The flattened list of triangle corner positions, in triangle order. -/
def TriMesh.corners (tm : TriMesh) : List Vec3 :=
  tm.indices.flatMap (fun t => [tm.pt t.1, tm.pt t.2.1, tm.pt t.2.2])

/-- `TriMesh::aabb()`: the root bounding volume of the mesh's internal BVT,
i.e. the union of the per-triangle AABBs — equivalently the bounds of all
triangle corner positions. -/
def TriMesh.aabb (tm : TriMesh) : Aabb := aabbOfPoints tm.corners

/-- Ray/triangle intersection (the Möller–Trumbore computation performed by
`ncollide3d`'s triangle ray cast): returns the time of impact when the ray
`o + t·d` meets the triangle `a b c` within `[0, maxToi]`, `none` otherwise
(including the parallel/degenerate case). -/
def rayTriangleToi (o d a b c : Vec3) (maxToi : ℚ) : Option ℚ :=
  let e1 := b.sub a
  let e2 := c.sub a
  let p := d.cross e2
  let det := e1.dot p
  if det = 0 then none
  else
    let t := o.sub a
    let u := t.dot p / det
    if u < 0 ∨ 1 < u then none
    else
      let q := t.cross e1
      let v := d.dot q / det
      if v < 0 ∨ 1 < u + v then none
      else
        let toi := e2.dot q / det
        if toi < 0 ∨ maxToi < toi then none else some toi

/-- Ray (`ncollide3d::query::Ray<f32>`). -/
structure Ray where
  origin : Vec3
  dir : Vec3
  deriving DecidableEq, Repr

/-- Result of a ray cast (`ncollide3d::query::RayIntersection<f32>`).  The
claims under verification inspect only the time of impact; the unit surface
normal and feature id carried by the library involve square roots and are
not consulted by any claim, so only `toi` is recorded. -/
structure RayIntersection where
  toi : ℚ
  deriving DecidableEq, Repr

/-- `TriMesh`'s `RayCast::toi_and_normal_with_ray`: the ray is mapped into
the mesh's local frame by the inverse of `m`, and the BVT best-first
traversal returns the smallest time of impact over all triangles within
`maxToi`.  The `solid` flag is irrelevant for a triangle surface. -/
def TriMesh.toiAndNormalWithRay (tm : TriMesh) (m : Iso) (r : Ray) (maxToi : ℚ)
    (_solid : Bool) : Option RayIntersection :=
  let o := m.invPoint r.origin
  let d := m.invVector r.dir
  tm.indices.foldl
    (fun best t =>
      match rayTriangleToi o d (tm.pt t.1) (tm.pt t.2.1) (tm.pt t.2.2) maxToi with
      | none => best
      | some toi =>
        match best with
        | none => some ⟨toi⟩
        | some b => if toi < b.toi then some ⟨toi⟩ else best)
    none

/-- A leaf of `ncollide3d::partitioning::BVT<usize, AABB<f32>>`: a bounding
volume plus the user data (here: the submesh index it was built from). -/
structure BVTLeaf where
  bv : Aabb
  data : Nat
  deriving DecidableEq, Repr

instance : Inhabited BVTLeaf := ⟨⟨default, 0⟩⟩

/-- Identifier of a BVT node in the flattened arrays. -/
inductive BVTNodeId where
  | internal (i : Nat)
  | leaf (i : Nat)
  deriving DecidableEq, Repr

/-- An internal node of the BVT. -/
structure BVTInternal where
  bv : Aabb
  left : BVTNodeId
  right : BVTNodeId
  deriving DecidableEq, Repr

/-- Flattened bounding-volume tree.  `leaf i` of the library reads
`leaves[i]`, so the order in which construction pushes leaves is
observable. -/
structure BVT where
  root : BVTNodeId
  internals : List BVTInternal
  leaves : List BVTLeaf
  deriving DecidableEq, Repr

/-- Insertion sort on rationals (stand-in for the sort inside
`ncollide3d::utils::median`; only the sorted order matters). -/
def insertQ (a : ℚ) : List ℚ → List ℚ
  | [] => [a]
  | b :: bs => if a ≤ b then a :: b :: bs else b :: insertQ a bs

/-- Sorts a list of rationals in nondecreasing order. -/
def sortQ : List ℚ → List ℚ
  | [] => []
  | a :: as => insertQ a (sortQ as)

/-- `ncollide3d::utils::median`: sort, take the middle element, averaging the
two middle elements for even length. -/
def medianQ (vals : List ℚ) : ℚ :=
  let s := sortQ vals
  let n := s.length
  if n % 2 = 0 then (s.getD (n / 2 - 1) 0 + s.getD (n / 2) 0) / 2
  else s.getD (n / 2) 0

/-- The partition loop of `BVT::median_partitioning`: elements whose center
coordinate along the split axis is below the median go left, the rest right,
with ties alternating (the `insert_left` flag, initially `false`, flips to
`true` after a right insertion and back after a left one). -/
def partitionByMedian (axis : Nat) (median : ℚ) :
    List (Nat × Aabb) → Bool → List (Nat × Aabb) × List (Nat × Aabb)
  | [], _ => ([], [])
  | (b, bv) :: rest, insLeft =>
    let pos := bv.center.coord axis
    if pos < median ∨ (pos = median ∧ insLeft) then
      let (l, r) := partitionByMedian axis median rest false
      ((b, bv) :: l, r)
    else
      let (l, r) := partitionByMedian axis median rest true
      (l, (b, bv) :: r)

/-- Result of one partitioning step: either a single element or two
sublists (`ncollide3d::partitioning::BinaryPartition`). -/
inductive BinPart where
  | part (data : Nat)
  | parts (left right : List (Nat × Aabb))
  deriving DecidableEq, Repr

/-- `BVT::median_partitioning` for AABB leaves: single elements stand alone;
longer lists are split at the median of the bounding-volume centers along
axis `depth % 3`, a degenerate split being repaired by moving the last
element of the nonempty side over.  The returned AABB is the merge of all
input volumes.  (The source panics on an empty input, which construction
never produces; we return junk.) -/
def medianPartitioning (depth : Nat) (elems : List (Nat × Aabb)) : Aabb × BinPart :=
  match elems with
  | [] => (default, BinPart.part 0)
  | [(b, bv)] => (bv, BinPart.part b)
  | (b0, bv0) :: rest =>
    let all := (b0, bv0) :: rest
    let sepAxis := depth % 3
    let median := medianQ (all.map (fun e => e.2.center.coord sepAxis))
    let (left, right) := partitionByMedian sepAxis median all false
    let merged := all.foldl (fun acc e => acc.merged e.2) bv0
    let (left, right) :=
      if left.isEmpty then ([right.getLastD (b0, bv0)], right.dropLast)
      else if right.isEmpty then (left.dropLast, [left.getLastD (b0, bv0)])
      else (left, right)
    (merged, BinPart.parts left right)

/-- The recursion of `BVT::from_partitioning`: internal nodes recurse on the
left part, then the right part, and each single element is pushed onto the
flat leaf array at that moment — so the leaf array ends up in partition
order, not in input order.  Fuel bounds the recursion depth; both parts of a
non-trivial partition are strictly shorter than the input, so fuel equal to
the input length suffices and the fuel-exhausted branch is unreachable. -/
def fromPartitioningAux :
    Nat → Nat → List (Nat × Aabb) → List BVTInternal → List BVTLeaf →
    BVTNodeId × List BVTInternal × List BVTLeaf
  | 0, _, _, ints, lvs => (BVTNodeId.leaf 0, ints, lvs)
  | fuel + 1, depth, elems, ints, lvs =>
    match medianPartitioning depth elems with
    | (bv, BinPart.part b) =>
      (BVTNodeId.leaf lvs.length, ints, lvs ++ [⟨bv, b⟩])
    | (bv, BinPart.parts l r) =>
      let (lid, ints1, lvs1) := fromPartitioningAux fuel (depth + 1) l ints lvs
      let (rid, ints2, lvs2) := fromPartitioningAux fuel (depth + 1) r ints1 lvs1
      (BVTNodeId.internal ints2.length, ints2 ++ [⟨bv, lid, rid⟩], lvs2)

/-- `BVT::new_balanced`: kd-median construction over `(submesh index, AABB)`
pairs. -/
def BVT.newBalanced (pairs : List (Nat × Aabb)) : BVT :=
  match pairs with
  | [] => ⟨BVTNodeId.leaf 0, [], []⟩
  | _ =>
    let (root, ints, lvs) := fromPartitioningAux pairs.length 0 pairs [] []
    ⟨root, ints, lvs⟩

/-- `BVT::leaf(i)`: direct index into the flattened leaf array. -/
def BVT.leafAt (t : BVT) (i : Nat) : BVTLeaf := t.leaves.getD i default

/-- Raw submesh data handed to `Geometry::new` (`tobj::Model`): flat position,
texture-coordinate and normal arrays, the triangle index list, and an
optional material id. -/
structure ObjModel where
  name : String
  positions : List ℚ
  texcoords : List ℚ
  normals : List ℚ
  indices : List Nat
  materialId : Option Nat
  deriving DecidableEq, Repr

/-- Render-side submesh record (`Mesh` of `geometry.rs`); the GPU vertex and
index buffer handles are out of scope and not represented. -/
structure Mesh where
  name : String
  numElements : Nat
  material : Nat
  deriving DecidableEq, Repr

/-- A loaded model's collision data (`Geometry` of `geometry.rs`): one
`TriMesh` collider per submesh plus the balanced BVT over their AABBs. -/
structure Geometry where
  meshes : List Mesh
  colliders : List TriMesh
  bvt : BVT
  deriving DecidableEq, Repr

/-- The vertex positions of one submesh: `positions.len() / 3` triples read
from the flat array, exactly as the vertex loop of `Geometry::new` builds
`ModelVertex.position`. -/
def objPositions (m : ObjModel) : List Vec3 :=
  (List.range (m.positions.length / 3)).map fun i =>
    ⟨m.positions.getD (i * 3) 0, m.positions.getD (i * 3 + 1) 0,
     m.positions.getD (i * 3 + 2) 0⟩

/-- The texture coordinates of one submesh, as read into
`ModelVertex.tex_coords` and passed to `TriMesh::new` as its `uvs`. -/
def objTexcoords (m : ObjModel) : List (ℚ × ℚ) :=
  (List.range (m.positions.length / 3)).map fun i =>
    (m.texcoords.getD (i * 2) 0, m.texcoords.getD (i * 2 + 1) 0)

/-- The triangle index triples of one submesh (`indices.chunks(3)`; the
source would panic on a trailing chunk shorter than 3, which well-formed
OBJ data never produces — such a remainder is dropped here). -/
def objTriangles (m : ObjModel) : List (Nat × Nat × Nat) :=
  (List.range (m.indices.length / 3)).map fun i =>
    (m.indices.getD (i * 3) 0, m.indices.getD (i * 3 + 1) 0,
     m.indices.getD (i * 3 + 2) 0)

/-- The collider `Geometry::new` builds for one submesh:
`TriMesh::new(positions, index triples, Some(texcoords))`.  The
tangent/bitangent accumulation loop of the source mutates only the
GPU vertex attributes and is invisible to the collision data. -/
def objCollider (m : ObjModel) : TriMesh :=
  ⟨objPositions m, objTriangles m, some (objTexcoords m)⟩

/-- `Geometry::new`: builds one collider and one render mesh per input
submesh (in input order), then one balanced BVT over the enumerated
collider AABBs. -/
def Geometry.new (objModels : List ObjModel) : Geometry :=
  let colliders := objModels.map objCollider
  let meshes := objModels.map fun m =>
    { name := m.name, numElements := m.indices.length,
      material := m.materialId.getD 0 : Mesh }
  let bvt := BVT.newBalanced (colliders.enum.map fun e => (e.1, e.2.aabb))
  ⟨meshes, colliders, bvt⟩

/-- `Geometry::scaled`: a fresh `Geometry` (the receiver is untouched — the
embedding is purely functional, as is the source, which works on a clone)
whose colliders are the originals scaled componentwise and whose BVT is
rebuilt from the scaled AABBs; the render meshes are carried over. -/
def Geometry.scaled (g : Geometry) (scale : Vec3) : Geometry :=
  let colliders := g.colliders.map fun c => c.scaled scale
  let bvt := BVT.newBalanced (colliders.enum.map fun e => (e.1, e.2.aabb))
  { g with colliders := colliders, bvt := bvt }

/-- `CompositeShape::aabb_at` for `Geometry`:
`*self.bvt.leaf(i).bounding_volume()`. -/
def Geometry.aabbAt (g : Geometry) (i : Nat) : Aabb := (g.bvt.leafAt i).bv

/-- The ray-cast loop of `RayCast for Geometry`: try the colliders in
storage order and return the first intersection reported. -/
def raycastFirst (m : Iso) (r : Ray) (maxToi : ℚ) (solid : Bool) :
    List TriMesh → Option RayIntersection
  | [] => none
  | c :: cs =>
    match c.toiAndNormalWithRay m r maxToi solid with
    | some inter => some inter
    | none => raycastFirst m r maxToi solid cs

/-- `Geometry`'s `RayCast::toi_and_normal_with_ray`. -/
def Geometry.toiAndNormalWithRay (g : Geometry) (m : Iso) (r : Ray)
    (maxToi : ℚ) (solid : Bool) : Option RayIntersection :=
  raycastFirst m r maxToi solid g.colliders

/-- Abstraction of the transcendental `cos`/`sin` used by
`UnitQuaternion::from_axis_angle` inside `Transform::isometry`: `cos a`
stands for the cosine of `a` and `sin a` for its sine.  Every theorem below
quantifies over this record, so in particular it covers the real
trigonometric functions (whose values at the rational angles in play are
approximated by `f32` in the source). -/
structure Trig where
  cos : ℚ → ℚ
  sin : ℚ → ℚ

/-- `UnitQuaternion::from_axis_angle(&Vector3::x_axis(), a)`. -/
def Quat.aboutX (τ : Trig) (a : ℚ) : Quat := ⟨τ.cos (a / 2), τ.sin (a / 2), 0, 0⟩

/-- `UnitQuaternion::from_axis_angle(&Vector3::y_axis(), a)`. -/
def Quat.aboutY (τ : Trig) (a : ℚ) : Quat := ⟨τ.cos (a / 2), 0, τ.sin (a / 2), 0⟩

/-- `UnitQuaternion::from_axis_angle(&Vector3::z_axis(), a)`. -/
def Quat.aboutZ (τ : Trig) (a : ℚ) : Quat := ⟨τ.cos (a / 2), 0, 0, τ.sin (a / 2)⟩

/-- The data determining one `InstanceRaw` GPU upload: the 4×4 instance
matrix of the source is `isometry().to_matrix() * new_nonuniform_scaling
(&scale)`, a function of exactly this isometry/scale pair (whose entries are
transcendental in the Euler angles, hence recorded by their defining
data). -/
structure InstanceData where
  pose : Iso
  scale : Vec3
  deriving DecidableEq, Repr

/-- `Transform` of `transform.rs`: translation, Euler rotation angles, scale,
the dirty flag, and the owned GPU instance buffer.  The buffer is modelled
as the log of uploads (`Buffer::new_init` plus each `Buffer::write`); its
current content is the last entry. -/
structure Transform where
  translation : Vec3
  rotation : Vec3
  scale : Vec3
  buffer : List InstanceData
  dirty : Bool
  deriving DecidableEq, Repr

/-- `Transform::isometry`: translation plus the product of the three
axis-angle rotations about x, y and z. -/
def Transform.isometry (τ : Trig) (t : Transform) : Iso :=
  ⟨((Quat.aboutX τ t.rotation.x).mul (Quat.aboutY τ t.rotation.y)).mul
      (Quat.aboutZ τ t.rotation.z),
   t.translation⟩

/-- The instance data uploaded for a transform (see `Transform::matrix`). -/
def Transform.instanceData (τ : Trig) (t : Transform) : InstanceData :=
  ⟨t.isometry τ, t.scale⟩

/-- `Transform::new`: identity pose, unit scale, clean flag, and an initial
buffer upload of the identity instance matrix. -/
def Transform.new (τ : Trig) : Transform :=
  let t0 : Transform :=
    { translation := ⟨0, 0, 0⟩, rotation := ⟨0, 0, 0⟩, scale := ⟨1, 1, 1⟩,
      buffer := [], dirty := false }
  { t0 with buffer := [t0.instanceData τ] }

/-- `Transform::set_position`: marks dirty, stores the translation, touches
nothing else (in particular not the GPU buffer). -/
def Transform.setPosition (t : Transform) (p : Vec3) : Transform :=
  { t with dirty := true, translation := p }

/-- `Transform::set_rotation`. -/
def Transform.setRotation (t : Transform) (r : Vec3) : Transform :=
  { t with dirty := true, rotation := r }

/-- `Transform::set_scale`. -/
def Transform.setScale (t : Transform) (s : Vec3) : Transform :=
  { t with dirty := true, scale := s }

/-- `Transform::buffer`: when dirty, clear the flag and upload the current
instance matrix; otherwise leave everything untouched.  The returned
borrow of the buffer is the final `buffer` field. -/
def Transform.flushBuffer (τ : Trig) (t : Transform) : Transform :=
  if t.dirty then
    { t with dirty := false, buffer := t.buffer ++ [t.instanceData τ] }
  else t

/-- One setter call on a transform (the mutations the UI/inspector layer can
perform between frames). -/
inductive SetterOp where
  | position (p : Vec3)
  | rotation (r : Vec3)
  | scale (s : Vec3)
  deriving DecidableEq, Repr

/-- Applies one setter. -/
def applySetter (t : Transform) : SetterOp → Transform
  | SetterOp.position p => t.setPosition p
  | SetterOp.rotation r => t.setRotation r
  | SetterOp.scale s => t.setScale s

/-- Applies a sequence of setters in order. -/
def applySetters (t : Transform) (ops : List SetterOp) : Transform :=
  ops.foldl applySetter t

/-- A loaded material (`model::Material`); its GPU bind groups are out of
scope, only the identity matters to the world-level claims. -/
structure Material where
  name : String
  deriving DecidableEq, Repr

/-- A loaded model (`model::Model`): its collision `Geometry` plus built-in
materials.  `world.rs` accesses the per-submesh colliders as
`model.mesh_colliders`, the collider list owned by the model's geometry. -/
structure Model where
  geometry : Geometry
  materials : List Material
  deriving DecidableEq, Repr

/-- The per-submesh collider list of a model (`model.mesh_colliders`). -/
def Model.meshColliders (m : Model) : List TriMesh := m.geometry.colliders

/-- `ncollide3d::pipeline::object::CollisionGroups` is an opaque filter
bitmask to this subsystem: the repository only ever constructs the default
(`CollisionGroups::new()`, which interacts with everything) or stores a
caller-provided value unchanged, so it is embedded as plain data. -/
abbrev CollisionGroups := Nat

/-- `CollisionGroups::new()`. -/
def CollisionGroups.new : CollisionGroups := 0

/-- `GeometricQueryType::Contacts(0.0, 0.0)`, the query kind of every entry
the world registers. -/
structure QueryType where
  prediction : ℚ
  angularPrediction : ℚ
  deriving DecidableEq, Repr

/-- One entry of the collision world
(`ncollide3d::pipeline::CollisionObject`): pose, shape, group filter, query
kind and the owner entity recorded as user data. -/
structure CollisionObject where
  pose : Iso
  shape : TriMesh
  groups : CollisionGroups
  queryType : QueryType
  owner : Nat
  deriving DecidableEq, Repr

/-- The collision world's object slab.  Handles
(`CollisionObjectSlabHandle`) are slab indices; since the repository never
removes an object, freshly added objects always receive consecutive
indices, so the slab is a list indexed by handle. -/
abbrev CollisionWorldState := List CollisionObject

/-- The component set of one entity.  `legion`'s dynamically typed component
storage is embedded as a record of optional components (exactly those the
repository ever attaches); a `none` field is an absent component, and
`get_component` failures are `componentMissing` errors. -/
structure Components where
  transform : Option Transform
  modelIdent : Option String
  materialIdent : Option String
  collisionGroups : Option CollisionGroups
  colliderGroup : Option (List Nat)
  deriving DecidableEq, Repr

/-- The component bundle passed to `World::push_entity` (a `legion`
component tuple; `ColliderGroup` is attached by `push_entity` itself and
cannot be part of the bundle). -/
structure EntityInput where
  transform : Option Transform
  modelIdent : Option String
  materialIdent : Option String
  collisionGroups : Option CollisionGroups
  deriving DecidableEq, Repr

/-- The errors `world.rs` produces (through `anyhow`): a failed
`get_component` (missing component), the "Cannot find model" context, and
the three aggregated forms built by `ensure_models_and_materials`, carrying
the lists of unresolved names their messages print. -/
inductive WErr where
  | componentMissing
  | cannotFindModel
  | modelsNotFound (models : List String)
  | materialsNotFound (materials : List String)
  | modelsAndMaterialsNotFound (models : List String) (materials : List String)
  deriving DecidableEq, Repr

/-- The model names an error message reports as missing. -/
def WErr.missingModelNames : WErr → List String
  | WErr.modelsNotFound ms => ms
  | WErr.modelsAndMaterialsNotFound ms _ => ms
  | _ => []

/-- The material names an error message reports as missing. -/
def WErr.missingMaterialNames : WErr → List String
  | WErr.materialsNotFound ms => ms
  | WErr.modelsAndMaterialsNotFound _ ms => ms
  | _ => []

/-- `World` of `world.rs`: the model and material registries (hash maps used
only through insert/lookup, embedded as association lists), the `legion`
entity store (entities carry a stable id; `nextEntity` is the fresh-id
counter) and the ncollide collision world. -/
structure World where
  models : List (String × Model)
  materials : List (String × Material)
  nextEntity : Nat
  entities : List (Nat × Components)
  collisionWorld : CollisionWorldState

/-- Registry lookup (`HashMap::get`). -/
def lookupStr {α : Type} : List (String × α) → String → Option α
  | [], _ => none
  | (k, v) :: rest, key => if k = key then some v else lookupStr rest key

/-- Entity lookup (`legion::World::entry`). -/
def findEntity : List (Nat × Components) → Nat → Option Components
  | [], _ => none
  | (i, c) :: rest, e => if i = e then some c else findEntity rest e

/-- The collider-registration loop of `push_entity`: for each mesh collider
(in submesh order) add one collision object — posed at the entity's
isometry, shaped as the collider scaled by the entity's scale — and record
the returned slab handle (the index at which the object lands). -/
def addColliders (pose : Iso) (scale : Vec3) (groups : CollisionGroups)
    (owner : Nat) :
    List TriMesh → CollisionWorldState → List Nat →
    CollisionWorldState × List Nat
  | [], cw, hs => (cw, hs)
  | c :: cs, cw, hs =>
    addColliders pose scale groups owner cs
      (cw ++ [{ pose := pose, shape := c.scaled scale, groups := groups,
                queryType := ⟨0, 0⟩, owner := owner }])
      (hs ++ [cw.length])

/-- `World::push_entity`: pushes the entity with its component bundle,
attaches an empty `ColliderGroup`, then reads the transform, the optional
collision groups and the model identity; a missing component or an
unresolved model name aborts with an error (the entity, already created,
stays behind); otherwise one collision object per submesh collider is
registered and the handles are recorded in the entity's collider group. -/
def World.pushEntity (τ : Trig) (w : World) (inp : EntityInput) :
    Except WErr Nat × World :=
  let e := w.nextEntity
  let comps : Components :=
    ⟨inp.transform, inp.modelIdent, inp.materialIdent, inp.collisionGroups,
     some []⟩
  let wAfterPush : World :=
    { w with nextEntity := e + 1, entities := w.entities ++ [(e, comps)] }
  match inp.transform with
  | none => (Except.error WErr.componentMissing, wAfterPush)
  | some t =>
    match inp.modelIdent with
    | none => (Except.error WErr.componentMissing, wAfterPush)
    | some mid =>
      match lookupStr w.models mid with
      | none => (Except.error WErr.cannotFindModel, wAfterPush)
      | some model =>
        let groups := inp.collisionGroups.getD CollisionGroups.new
        let (cw, hs) :=
          addColliders (t.isometry τ) t.scale groups e model.meshColliders
            w.collisionWorld []
        (Except.ok e,
         { w with nextEntity := e + 1,
                  entities := w.entities ++ [(e, { comps with colliderGroup := some hs })],
                  collisionWorld := cw })

/-- In-place update of one slab entry (`CollisionWorld::get_mut` followed by
mutation; the source unwraps the lookup and would panic on a dangling
handle, which no reachable world produces — out-of-range indices are left
unchanged here). -/
def modifyAt {α : Type} : List α → Nat → (α → α) → List α
  | [], _, _ => []
  | a :: as, 0, f => f a :: as
  | a :: as, n + 1, f => a :: modifyAt as n f

/-- The update loop of `update_entity_world_transform`: for the `i`-th
handle of the collider group, `set_position` to the entity's isometry and
`set_shape` to submesh collider `i` rebuilt at the entity's scale. -/
def setColliders (pose : Iso) (scale : Vec3) (model : Model) :
    List Nat → Nat → CollisionWorldState → CollisionWorldState
  | [], _, cw => cw
  | h :: hs, i, cw =>
    setColliders pose scale model hs (i + 1)
      (modifyAt cw h fun o =>
        { o with pose := pose,
                 shape := (model.meshColliders.getD i default).scaled scale })

/-- `World::update_entity_world_transform`: for an existing entity, reads
its transform, model identity (resolving it in the registry) and collider
group, then re-poses and re-shapes every registered collision object; a
nonexistent entity is silently a no-op (`if let Some`). -/
def World.updateEntityWorldTransform (τ : Trig) (w : World) (e : Nat) :
    Except WErr Unit × World :=
  match findEntity w.entities e with
  | none => (Except.ok (), w)
  | some c =>
    match c.transform with
    | none => (Except.error WErr.componentMissing, w)
    | some t =>
      match c.modelIdent with
      | none => (Except.error WErr.componentMissing, w)
      | some mid =>
        match lookupStr w.models mid with
        | none => (Except.error WErr.cannotFindModel, w)
        | some model =>
          match c.colliderGroup with
          | none => (Except.error WErr.componentMissing, w)
          | some hs =>
            (Except.ok (),
             { w with collisionWorld :=
                 setColliders (t.isometry τ) t.scale model hs 0 w.collisionWorld })

/-- `CollisionWorld::update` (`World::update_collision_world`): recomputes
the broad- and narrow-phase structures.  It removes objects only when
removals were queued through `CollisionWorld::remove`, which the repository
never calls, so the object slab is unchanged. -/
def CollisionWorldState.update (cw : CollisionWorldState) : CollisionWorldState := cw

/-- `CollisionWorld::first_interference_with_ray` as used by
`World::raycast`: some colliding entry within `max_toi` (the default
`CollisionGroups::new()` filter of the query interacts with every entry);
the broad-phase traversal order is internal to the library, embedded here
as slab order.  Returns the owner entity recorded in the entry's data. -/
def World.raycast (w : World) (r : Ray) (maxToi : ℚ) : Option Nat :=
  let rec firstHit : CollisionWorldState → Option Nat
    | [] => none
    | o :: os =>
      match o.shape.toiAndNormalWithRay o.pose r maxToi true with
      | some _ => some o.owner
      | none => firstHit os
  firstHit w.collisionWorld

/-- The model names referenced by entities but absent from the model
registry, one occurrence per referencing entity, in the component-query
iteration order (`ensure_models_and_materials`'s `models_not_found`). -/
def World.missingModels (w : World) : List String :=
  w.entities.filterMap fun ec =>
    match ec.2.modelIdent with
    | none => none
    | some mid => if (lookupStr w.models mid).isSome then none else some mid

/-- The material names referenced by entities but absent from the material
registry (`materials_not_found`). -/
def World.missingMaterials (w : World) : List String :=
  w.entities.filterMap fun ec =>
    match ec.2.materialIdent with
    | none => none
    | some mid => if (lookupStr w.materials mid).isSome then none else some mid

/-- `World::ensure_models_and_materials`: validates every entity-held model
and material name and aggregates all unresolved ones into a single error
(one of the three aggregate shapes, matching on which lists are
nonempty). -/
def World.ensureModelsAndMaterials (w : World) : Except WErr Unit :=
  match w.missingModels.isEmpty, w.missingMaterials.isEmpty with
  | false, true => Except.error (WErr.modelsNotFound w.missingModels)
  | true, false => Except.error (WErr.materialsNotFound w.missingMaterials)
  | false, false =>
    Except.error
      (WErr.modelsAndMaterialsNotFound w.missingModels w.missingMaterials)
  | true, true => Except.ok ()

/-- One recorded draw call: `draw_model_with_material` when the entity has a
material override, `draw_model` otherwise. -/
structure DrawCall where
  model : String
  materialOverride : Option String
  deriving DecidableEq, Repr

/-- The per-entity render loop: every entity holding both a `Transform` and
a `ModelIdent` gets its transform buffer lazily flushed (`transform.buffer
(state)`) and one draw call issued; other entities are skipped by the
component query. -/
def renderEntities (τ : Trig) :
    List (Nat × Components) → List (Nat × Components) × List DrawCall
  | [] => ([], [])
  | (e, c) :: rest =>
    let (rest', draws) := renderEntities τ rest
    match c.transform, c.modelIdent with
    | some t, some mid =>
      ((e, { c with transform := some (t.flushBuffer τ) }) :: rest',
       ⟨mid, c.materialIdent⟩ :: draws)
    | _, _ => ((e, c) :: rest', draws)

/-- `World::render`: validates all model/material references first and
aborts with the aggregated error before issuing any draw call; on success
flushes dirty transform buffers and issues one draw call per renderable
entity.  The result carries the issued draw calls and the updated world. -/
def World.render (τ : Trig) (w : World) :
    Except WErr Unit × List DrawCall × World :=
  match w.ensureModelsAndMaterials with
  | Except.error e => (Except.error e, [], w)
  | Except.ok () =>
    let (es, draws) := renderEntities τ w.entities
    (Except.ok (), draws, { w with entities := es })

/-- The operations a caller can perform on a `World` (the public mutating
and querying surface of `world.rs` exercised by the engine loop). -/
inductive WOp where
  | push (inp : EntityInput)
  | updateTransform (e : Nat)
  | updateCollision
  | rayQuery (r : Ray) (maxToi : ℚ)
  | render

/-- State transition of one operation (query results are discarded; `raycast`
takes `&self` and cannot mutate). -/
def World.step (τ : Trig) (w : World) : WOp → World
  | WOp.push inp => (w.pushEntity τ inp).2
  | WOp.updateTransform e => (w.updateEntityWorldTransform τ e).2
  | WOp.updateCollision => { w with collisionWorld := w.collisionWorld.update }
  | WOp.rayQuery _ _ => w
  | WOp.render => (World.render τ w).2.2

/-- Runs a sequence of world operations. -/
def World.run (τ : Trig) (w : World) (ops : List WOp) : World :=
  ops.foldl (World.step τ) w

instance : Inhabited CollisionObject :=
  ⟨⟨Iso.id, default, CollisionGroups.new, ⟨0, 0⟩, 0⟩⟩

/-- The collision object `push_entity` registers for submesh collider `c`. -/
def registeredObject (pose : Iso) (scale : Vec3) (groups : CollisionGroups)
    (owner : Nat) (c : TriMesh) : CollisionObject :=
  { pose := pose, shape := c.scaled scale, groups := groups,
    queryType := ⟨0, 0⟩, owner := owner }

/-- A trigonometry instance used to evaluate the development on concrete
inputs (the concrete scenes below only use zero rotation angles, whose
images under `cos`/`sin` never reach the collision data). -/
def demoTrig : Trig := ⟨fun _ => 1, fun _ => 0⟩

/-- A one-triangle submesh occupying `[10,11]×[0,1]×[0,1]` — deliberately to
the right of `objNearOrigin` so that the kd-median split of the BVT
construction sends it to the right subtree. -/
def objFarRight : ObjModel :=
  ⟨"far", [10, 0, 0, 11, 0, 0, 10, 1, 1], [0, 0, 1, 0, 0, 1],
   [0, 0, 0, 0, 0, 0, 0, 0, 0], [0, 1, 2], none⟩

/-- A one-triangle submesh occupying `[0,1]×[0,1]×[0,1]`. -/
def objNearOrigin : ObjModel :=
  ⟨"near", [0, 0, 0, 1, 0, 0, 0, 1, 1], [0, 0, 1, 0, 0, 1],
   [0, 0, 0, 0, 0, 0, 0, 0, 0], [0, 1, 2], none⟩

/-- A two-submesh geometry whose submeshes are listed in the opposite of
the BVT partition order. -/
def twoSubmeshGeometry : Geometry := Geometry.new [objFarRight, objNearOrigin]

/-- A triangle sheet at `z = 2`, crossing the demo pick ray far from its
origin. -/
def objFarSheet : ObjModel :=
  ⟨"farSheet", [0, 0, 2, 3, 0, 2, 0, 3, 2], [0, 0, 1, 0, 0, 1],
   [0, 0, 0, 0, 0, 0, 0, 0, 0], [0, 1, 2], none⟩

/-- A triangle sheet at `z = 1`, crossing the demo pick ray nearer to its
origin than `objFarSheet`, but stored after it. -/
def objNearSheet : ObjModel :=
  ⟨"nearSheet", [0, 0, 1, 3, 0, 1, 0, 3, 1], [0, 0, 1, 0, 0, 1],
   [0, 0, 0, 0, 0, 0, 0, 0, 0], [0, 1, 2], none⟩

/-- Geometry with two parallel sheets across the demo pick ray: the far one
first in storage order. -/
def sheetGeometry : Geometry := Geometry.new [objFarSheet, objNearSheet]

/-- A ray from `z = -1` straight towards positive `z`, meeting the near
sheet at `toi = 2` and the far sheet at `toi = 3`. -/
def pickRay : Ray := ⟨⟨1 / 3, 1 / 3, -1⟩, ⟨0, 0, 1⟩⟩

/-- An axis-aligned unit-cube submesh (all eight corners appear in a
triangle). -/
def objUnitCube : ObjModel :=
  ⟨"cube",
   [0, 0, 0, 1, 0, 0, 0, 1, 0, 0, 0, 1, 1, 1, 0, 1, 0, 1, 0, 1, 1, 1, 1, 1],
   [0, 0, 1, 0, 0, 1, 1, 1, 0, 0, 1, 0, 0, 1, 1, 1],
   List.replicate 24 0, [0, 1, 2, 3, 4, 5, 6, 7, 0], none⟩

/-- A geometry holding the unit-cube collider. -/
def cubeGeometry : Geometry := Geometry.new [objUnitCube]

/-- The scale vector used by the concrete scaling checks. -/
def demoScale : Vec3 := ⟨2, 3, 1 / 2⟩

/-- The model built around the two-sheet geometry. -/
def sheetModel : Model := ⟨sheetGeometry, []⟩

/-- A world whose registry holds the sheet model and nothing else. -/
def demoWorld : World := ⟨[("sheets", sheetModel)], [], 0, [], []⟩

/-- The component bundle pushed in the concrete scenarios: a fresh
transform plus the (resolvable) model name. -/
def demoInput : EntityInput :=
  ⟨some (Transform.new demoTrig), some "sheets", none, none⟩

/-- The demo world after one successful `push_entity`. -/
def demoWorldPushed : World := (demoWorld.pushEntity demoTrig demoInput).2

/-- A component bundle naming a model that was never loaded. -/
def ghostInput : EntityInput :=
  ⟨some (Transform.new demoTrig), some "ghost", none, none⟩

/-- A world containing one entity whose model name resolves to nothing. -/
def ghostWorld : World :=
  ⟨[], [], 1,
   [(0, ⟨some (Transform.new demoTrig), some "ghost", none, none, some []⟩)], []⟩

/-- The world with empty registries and no entities. -/
def emptyWorld : World := ⟨[], [], 0, [], []⟩

/-- The components the demo entity carries right after a successful push. -/
def demoPushedComponents : Components :=
  ⟨some (Transform.new demoTrig), some "sheets", none, none, some [0, 1]⟩

theorem addColliders_eq (pose : Iso) (scale : Vec3) (groups : CollisionGroups)
    (owner : Nat) :
    ∀ (cs : List TriMesh) (cw : CollisionWorldState) (hs : List Nat),
      addColliders pose scale groups owner cs cw hs =
        (cw ++ cs.map (registeredObject pose scale groups owner),
         hs ++ (List.range cs.length).map fun i => cw.length + i)
  | [], cw, hs => by simp [addColliders]
  | c :: cs, cw, hs => by
    rw [addColliders, addColliders_eq pose scale groups owner cs]
    refine Prod.ext ?_ ?_
    · simp [registeredObject]
    · simp only [List.length_append, List.length_cons, List.length_map,
        List.range_succ_eq_map, List.map_cons, List.map_map, List.append_assoc,
        List.cons_append, List.singleton_append, List.length_nil]
      refine congrArg (hs ++ ·) (congrArg (_ :: ·) (List.map_congr_left ?_))
      intro i _
      simp [Function.comp, Nat.add_comm, Nat.add_assoc, Nat.add_left_comm]

theorem modifyAt_length {α : Type} (f : α → α) :
    ∀ (l : List α) (n : Nat), (modifyAt l n f).length = l.length
  | [], _ => rfl
  | _ :: as, 0 => by simp [modifyAt]
  | _ :: as, n + 1 => by simp [modifyAt, modifyAt_length f as n]

theorem modifyAt_getD_ne {α : Type} (f : α → α) (d : α) :
    ∀ (l : List α) (n m : Nat), n ≠ m →
      (modifyAt l n f).getD m d = l.getD m d
  | [], _, _, _ => rfl
  | a :: as, 0, 0, h => absurd rfl h
  | a :: as, 0, m + 1, _ => by simp [modifyAt]
  | a :: as, n + 1, 0, _ => by simp [modifyAt]
  | a :: as, n + 1, m + 1, h => by
    simp only [modifyAt, List.getD_cons_succ]
    exact modifyAt_getD_ne f d as n m (fun hnm => h (congrArg Nat.succ hnm))

theorem modifyAt_getD_self {α : Type} (f : α → α) (d : α) :
    ∀ (l : List α) (n : Nat), n < l.length →
      (modifyAt l n f).getD n d = f (l.getD n d)
  | [], n, h => absurd h (by simp)
  | a :: as, 0, _ => by simp [modifyAt]
  | a :: as, n + 1, h => by
    simp only [modifyAt, List.getD_cons_succ]
    exact modifyAt_getD_self f d as n (Nat.lt_of_succ_lt_succ h)

theorem setColliders_length (pose : Iso) (scale : Vec3) (model : Model) :
    ∀ (hs : List Nat) (i : Nat) (cw : CollisionWorldState),
      (setColliders pose scale model hs i cw).length = cw.length
  | [], _, _ => rfl
  | h :: hs, i, cw => by
    rw [setColliders, setColliders_length pose scale model hs (i + 1),
      modifyAt_length]

theorem setColliders_getD_notMem (pose : Iso) (scale : Vec3) (model : Model)
    (d : CollisionObject) :
    ∀ (hs : List Nat) (h : Nat) (i : Nat) (cw : CollisionWorldState),
      h ∉ hs →
      (setColliders pose scale model hs i cw).getD h d = cw.getD h d
  | [], _, _, _, _ => by rfl
  | h0 :: hs, h, i, cw, hmem => by
    rw [setColliders,
      setColliders_getD_notMem pose scale model d hs h (i + 1) _
        (fun hin => hmem (List.mem_cons_of_mem _ hin)),
      modifyAt_getD_ne]
    exact fun he => hmem (he ▸ List.mem_cons_self h0 hs)

theorem setColliders_getD (pose : Iso) (scale : Vec3) (model : Model)
    (d : CollisionObject) :
    ∀ (hs : List Nat) (i : Nat) (cw : CollisionWorldState),
      hs.Nodup → (∀ x ∈ hs, x < cw.length) →
      ∀ (j : Nat) (hj : j < hs.length),
        (setColliders pose scale model hs i cw).getD (hs.get ⟨j, hj⟩) d =
          { cw.getD (hs.get ⟨j, hj⟩) d with
            pose := pose,
            shape := (model.meshColliders.getD (i + j) default).scaled scale }
  | [], _, _, _, _, j, hj => absurd hj (by simp)
  | h0 :: hs, i, cw, hnd, hbound, 0, hj => by
    have hnotin : h0 ∉ hs := (List.nodup_cons.mp hnd).1
    rw [setColliders]
    show (setColliders pose scale model hs (i + 1) _).getD h0 d = _
    rw [setColliders_getD_notMem pose scale model d hs h0 (i + 1) _ hnotin,
      modifyAt_getD_self _ d cw h0 (hbound h0 (List.mem_cons_self h0 hs))]
    simp
  | h0 :: hs, i, cw, hnd, hbound, j + 1, hj => by
    have hnotin : h0 ∉ hs := (List.nodup_cons.mp hnd).1
    have htl : hs.Nodup := (List.nodup_cons.mp hnd).2
    have hj' : j < hs.length := Nat.lt_of_succ_lt_succ hj
    rw [setColliders]
    show (setColliders pose scale model hs (i + 1) _).getD (hs.get ⟨j, hj'⟩) d = _
    rw [setColliders_getD pose scale model d hs (i + 1)
      (modifyAt cw h0 _) htl ?bound j hj']
    case bound =>
      intro x hx
      rw [modifyAt_length]
      exact hbound x (List.mem_cons_of_mem _ hx)
    rw [modifyAt_getD_ne]
    · have : i + 1 + j = i + (j + 1) := by omega
      rw [this]
      rfl
    · intro he
      exact hnotin (he ▸ List.get_mem hs j hj')

theorem findEntity_append_fresh (c : Components) :
    ∀ (l : List (Nat × Components)) (e : Nat), findEntity l e = none →
      findEntity (l ++ [(e, c)]) e = some c
  | [], e, _ => by simp [findEntity]
  | (i, c0) :: rest, e, h => by
    have hstep : findEntity ((i, c0) :: rest) e
        = if i = e then some c0 else findEntity rest e := rfl
    have hstep2 : findEntity ((i, c0) :: (rest ++ [(e, c)])) e
        = if i = e then some c0 else findEntity (rest ++ [(e, c)]) e := rfl
    by_cases hie : i = e
    · rw [hstep, if_pos hie] at h; cases h
    · rw [List.cons_append, hstep2, if_neg hie]
      rw [hstep, if_neg hie] at h
      exact findEntity_append_fresh c rest e h

theorem getD_append_offset {α : Type} (d : α) :
    ∀ (l l2 : List α) (i : Nat), (l ++ l2).getD (l.length + i) d = l2.getD i d
  | [], l2, i => by simp
  | a :: as, l2, i => by
    simpa [Nat.succ_add] using getD_append_offset d as l2 i

theorem range_map_getD {α : Type} (d : α) (f : Nat → α) :
    ∀ (n i : Nat), i < n → ((List.range n).map f).getD i d = f i := by
  intro n i h
  have hl : i < ((List.range n).map f).length := by simpa using h
  rw [List.getD_eq_getElem _ _ hl, List.getElem_map, List.getElem_range]

theorem getD_map_lt {α β : Type} (f : α → β) (d : β) (d2 : α) (l : List α)
    (i : Nat) (h : i < l.length) : (l.map f).getD i d = f (l.getD i d2) := by
  rw [List.getD_eq_getElem _ _ (by simpa using h), List.getElem_map,
    List.getD_eq_getElem _ _ h]

theorem raycastFirst_eq_none_iff (m : Iso) (r : Ray) (maxToi : ℚ) (solid : Bool) :
    ∀ cs : List TriMesh,
      raycastFirst m r maxToi solid cs = none ↔
        ∀ c ∈ cs, c.toiAndNormalWithRay m r maxToi solid = none
  | [] => by simp [raycastFirst]
  | c :: cs => by
    rw [raycastFirst]
    cases hc : c.toiAndNormalWithRay m r maxToi solid with
    | some inter => simp [hc]
    | none => simpa [hc] using raycastFirst_eq_none_iff m r maxToi solid cs

theorem raycastFirst_eq_some_iff (m : Iso) (r : Ray) (maxToi : ℚ) (solid : Bool)
    (inter : RayIntersection) :
    ∀ cs : List TriMesh,
      raycastFirst m r maxToi solid cs = some inter ↔
        ∃ i, i < cs.length ∧
          (cs.getD i default).toiAndNormalWithRay m r maxToi solid = some inter ∧
          ∀ j, j < i →
            (cs.getD j default).toiAndNormalWithRay m r maxToi solid = none
  | [] => by simp [raycastFirst]
  | c :: cs => by
    rw [raycastFirst]
    cases hc : c.toiAndNormalWithRay m r maxToi solid with
    | some v =>
      constructor
      · intro hv
        exact ⟨0, Nat.succ_pos cs.length, by rw [List.getD_cons_zero, hc]; exact hv,
          fun j hj => absurd hj (by omega)⟩
      · rintro ⟨i, hi, hhit, hprev⟩
        cases i with
        | zero => simp only [List.getD_cons_zero] at hhit; rw [hc] at hhit; exact hhit
        | succ i =>
          have h0 := hprev 0 (Nat.succ_pos i)
          rw [List.getD_cons_zero, hc] at h0
          cases h0
    | none =>
      rw [raycastFirst_eq_some_iff m r maxToi solid inter cs]
      constructor
      · rintro ⟨i, hi, hhit, hprev⟩
        refine ⟨i + 1, by simpa using hi, by simpa using hhit, ?_⟩
        intro j hj
        cases j with
        | zero => simpa using hc
        | succ j => simpa using hprev j (Nat.lt_of_succ_lt_succ hj)
      · rintro ⟨i, hi, hhit, hprev⟩
        cases i with
        | zero => simp only [List.getD_cons_zero] at hhit; rw [hc] at hhit; cases hhit
        | succ i =>
          refine ⟨i, by simpa using hi, by simpa using hhit, ?_⟩
          intro j hj
          simpa using hprev (j + 1) (Nat.succ_lt_succ hj)

theorem cmul_inf (k a b : Vec3) (hx : 0 ≤ k.x) (hy : 0 ≤ k.y) (hz : 0 ≤ k.z) :
    Vec3.cmul k (a.inf b) = (Vec3.cmul k a).inf (Vec3.cmul k b) := by
  simp only [Vec3.cmul, Vec3.inf, mul_min_of_nonneg _ _ hx,
    mul_min_of_nonneg _ _ hy, mul_min_of_nonneg _ _ hz]

theorem cmul_sup (k a b : Vec3) (hx : 0 ≤ k.x) (hy : 0 ≤ k.y) (hz : 0 ≤ k.z) :
    Vec3.cmul k (a.sup b) = (Vec3.cmul k a).sup (Vec3.cmul k b) := by
  simp only [Vec3.cmul, Vec3.sup, mul_max_of_nonneg _ _ hx,
    mul_max_of_nonneg _ _ hy, mul_max_of_nonneg _ _ hz]

theorem aabbOfPoints_fold_cmul (k : Vec3) (hx : 0 ≤ k.x) (hy : 0 ≤ k.y)
    (hz : 0 ≤ k.z) :
    ∀ (pts : List Vec3) (a b : Vec3),
      (pts.map (Vec3.cmul k)).foldl
          (fun ab q => Aabb.mk (ab.mins.inf q) (ab.maxs.sup q))
          ⟨Vec3.cmul k a, Vec3.cmul k b⟩ =
        ⟨Vec3.cmul k (pts.foldl (fun ab q => Aabb.mk (ab.mins.inf q) (ab.maxs.sup q)) ⟨a, b⟩).mins,
         Vec3.cmul k (pts.foldl (fun ab q => Aabb.mk (ab.mins.inf q) (ab.maxs.sup q)) ⟨a, b⟩).maxs⟩
  | [], a, b => rfl
  | p :: pts, a, b => by
    rw [List.map_cons, List.foldl_cons, List.foldl_cons]
    show (pts.map (Vec3.cmul k)).foldl
        (fun ab q => Aabb.mk (ab.mins.inf q) (ab.maxs.sup q))
        (Aabb.mk ((Vec3.cmul k a).inf (Vec3.cmul k p))
          ((Vec3.cmul k b).sup (Vec3.cmul k p))) = _
    rw [← cmul_inf k a p hx hy hz, ← cmul_sup k b p hx hy hz]
    exact aabbOfPoints_fold_cmul k hx hy hz pts (a.inf p) (b.sup p)

theorem aabbOfPoints_cmul (k : Vec3) (hx : 0 ≤ k.x) (hy : 0 ≤ k.y) (hz : 0 ≤ k.z)
    (pts : List Vec3) (hne : pts ≠ []) :
    aabbOfPoints (pts.map (Vec3.cmul k)) =
      ⟨Vec3.cmul k (aabbOfPoints pts).mins, Vec3.cmul k (aabbOfPoints pts).maxs⟩ := by
  cases pts with
  | nil => exact absurd rfl hne
  | cons p ps =>
    rw [List.map_cons]
    show (ps.map (Vec3.cmul k)).foldl
        (fun ab q => Aabb.mk (ab.mins.inf q) (ab.maxs.sup q))
        (Aabb.mk (Vec3.cmul k p) (Vec3.cmul k p)) = _
    exact aabbOfPoints_fold_cmul k hx hy hz ps p p

theorem cmul_zero_vec (k : Vec3) : Vec3.cmul k ⟨0, 0, 0⟩ = ⟨0, 0, 0⟩ := by
  simp [Vec3.cmul]

theorem scaled_pt (k : Vec3) (tm : TriMesh) (i : Nat) :
    (tm.scaled k).pt i = Vec3.cmul k (tm.pt i) := by
  show (tm.points.map (Vec3.cmul k)).getD i ⟨0, 0, 0⟩ = _
  conv_lhs => rw [← cmul_zero_vec k]
  rw [TriMesh.pt, List.getD_map]

theorem scaled_corners (k : Vec3) (tm : TriMesh) :
    (tm.scaled k).corners = tm.corners.map (Vec3.cmul k) := by
  show ((tm.scaled k).indices).flatMap _ = _
  have hidx : (tm.scaled k).indices = tm.indices := rfl
  rw [hidx, TriMesh.corners, List.map_flatMap]
  refine List.flatMap_congr ?_
  intro t _
  simp [scaled_pt]

theorem scaled_aabb (k : Vec3) (hx : 0 ≤ k.x) (hy : 0 ≤ k.y) (hz : 0 ≤ k.z)
    (tm : TriMesh) (hne : tm.indices ≠ []) :
    (tm.scaled k).aabb =
      ⟨Vec3.cmul k tm.aabb.mins, Vec3.cmul k tm.aabb.maxs⟩ := by
  rw [TriMesh.aabb, TriMesh.aabb, scaled_corners]
  refine aabbOfPoints_cmul k hx hy hz tm.corners ?_
  cases hti : tm.indices with
  | nil => exact absurd hti hne
  | cons t ts => simp [TriMesh.corners, hti]

theorem pushEntity_cw_length (τ : Trig) (w : World) (inp : EntityInput) :
    w.collisionWorld.length ≤ ((w.pushEntity τ inp).2).collisionWorld.length := by
  cases htr : inp.transform with
  | none => simp only [World.pushEntity, htr]; exact Nat.le_refl _
  | some t =>
    cases hmi : inp.modelIdent with
    | none => simp only [World.pushEntity, htr, hmi]; exact Nat.le_refl _
    | some mid =>
      cases hm : lookupStr w.models mid with
      | none => simp only [World.pushEntity, htr, hmi, hm]; exact Nat.le_refl _
      | some model =>
        simp only [World.pushEntity, htr, hmi, hm, addColliders_eq,
          List.length_append]
        exact Nat.le_add_right _ _

theorem updateEntity_cw_length (τ : Trig) (w : World) (e : Nat) :
    ((w.updateEntityWorldTransform τ e).2).collisionWorld.length =
      w.collisionWorld.length := by
  cases hf : findEntity w.entities e with
  | none => simp only [World.updateEntityWorldTransform, hf]
  | some c =>
    cases htr : c.transform with
    | none => simp only [World.updateEntityWorldTransform, hf, htr]
    | some t =>
      cases hmi : c.modelIdent with
      | none => simp only [World.updateEntityWorldTransform, hf, htr, hmi]
      | some mid =>
        cases hm : lookupStr w.models mid with
        | none => simp only [World.updateEntityWorldTransform, hf, htr, hmi, hm]
        | some model =>
          cases hcg : c.colliderGroup with
          | none =>
            simp only [World.updateEntityWorldTransform, hf, htr, hmi, hm, hcg]
          | some hs =>
            simp only [World.updateEntityWorldTransform, hf, htr, hmi, hm, hcg]
            exact setColliders_length _ _ _ hs 0 _

theorem render_cw (τ : Trig) (w : World) :
    ((World.render τ w).2.2).collisionWorld = w.collisionWorld := by
  rw [World.render]
  cases w.ensureModelsAndMaterials with
  | error e => rfl
  | ok u => cases u; rfl

theorem step_cw_le (τ : Trig) (w : World) (op : WOp) :
    w.collisionWorld.length ≤ (w.step τ op).collisionWorld.length := by
  cases op with
  | push inp => exact pushEntity_cw_length τ w inp
  | updateTransform e => exact Nat.le_of_eq (updateEntity_cw_length τ w e).symm
  | updateCollision => exact Nat.le_refl _
  | rayQuery r maxToi => exact Nat.le_refl _
  | render => exact Nat.le_of_eq (congrArg List.length (render_cw τ w)).symm

theorem run_cw_le (τ : Trig) :
    ∀ (ops : List WOp) (w : World),
      w.collisionWorld.length ≤ (w.run τ ops).collisionWorld.length
  | [], _ => Nat.le_refl _
  | op :: ops, w =>
    Nat.le_trans (step_cw_le τ w op) (run_cw_le τ ops (w.step τ op))

theorem applySetters_buffer (ops : List SetterOp) :
    ∀ t : Transform, (applySetters t ops).buffer = t.buffer := by
  induction ops with
  | nil => intro t; rfl
  | cons op ops ih =>
    intro t
    rw [applySetters, List.foldl_cons]
    have : (applySetter t op).buffer = t.buffer := by
      cases op <;> rfl
    rw [← this]
    exact ih (applySetter t op)

theorem applySetters_dirty (ops : List SetterOp) :
    ∀ t : Transform,
      (applySetters t ops).dirty = (if ops.isEmpty then t.dirty else true) := by
  induction ops with
  | nil => intro t; rfl
  | cons op ops ih =>
    intro t
    rw [applySetters, List.foldl_cons]
    have hd : (applySetter t op).dirty = true := by cases op <;> rfl
    have := ih (applySetter t op)
    rw [applySetters] at this
    rw [this, hd]
    cases hops : ops.isEmpty <;> simp [hops]

theorem mem_missingModels (w : World) (e : Nat) (c : Components) (mid : String)
    (hmem : (e, c) ∈ w.entities) (hmid : c.modelIdent = some mid)
    (hlook : lookupStr w.models mid = none) : mid ∈ w.missingModels := by
  rw [World.missingModels]
  refine List.mem_filterMap.mpr ⟨(e, c), hmem, ?_⟩
  simp [hmid, hlook]

theorem mem_missingMaterials (w : World) (e : Nat) (c : Components) (mid : String)
    (hmem : (e, c) ∈ w.entities) (hmid : c.materialIdent = some mid)
    (hlook : lookupStr w.materials mid = none) : mid ∈ w.missingMaterials := by
  rw [World.missingMaterials]
  refine List.mem_filterMap.mpr ⟨(e, c), hmem, ?_⟩
  simp [hmid, hlook]

/-- C1: the claimed invariant — "the bounding volume stored at BVT leaf `i`
(as returned by `aabb_at(i)`, i.e. `bvt.leaf(i).bounding_volume()`) equals
the AABB of collider `i`" — fails on the code: `BVT::new_balanced` stores
its leaves in kd-median partition order, not input order, so for a
two-submesh geometry whose first submesh lies to the right of the second,
`aabb_at(0)` returns collider 1's AABB (the leaf's own data field records
index 1), which differs from collider 0's AABB.  This theorem evaluates the
embedded code at that failing input. -/
theorem c1_aabbAt_returns_wrong_collider_aabb :
    twoSubmeshGeometry.colliders.length = 2 ∧
    (twoSubmeshGeometry.bvt.leafAt 0).data = 1 ∧
    twoSubmeshGeometry.aabbAt 0
      = (twoSubmeshGeometry.colliders.getD 1 default).aabb ∧
    twoSubmeshGeometry.aabbAt 0
      ≠ (twoSubmeshGeometry.colliders.getD 0 default).aabb ∧
    twoSubmeshGeometry.aabbAt 1
      = (twoSubmeshGeometry.colliders.getD 0 default).aabb := by
  refine ⟨by decide!, by decide!, by decide!, by decide!, by decide!⟩

/-- C2: `Geometry`'s ray cast tries the submesh colliders in storage order
and returns the first reported intersection (`none` exactly when no collider
reports a hit); concretely, on a geometry whose far sheet (hit at
`toi = 3`) is stored before its near sheet (hit at `toi = 2`), the result is
the far hit — not the nearest intersection along the ray. -/
theorem c2_geometry_raycast_first_hit_in_storage_order :
    (∀ (g : Geometry) (m : Iso) (r : Ray) (maxToi : ℚ) (solid : Bool),
      g.toiAndNormalWithRay m r maxToi solid = none ↔
        ∀ c ∈ g.colliders, c.toiAndNormalWithRay m r maxToi solid = none) ∧
    (∀ (g : Geometry) (m : Iso) (r : Ray) (maxToi : ℚ) (solid : Bool)
        (inter : RayIntersection),
      g.toiAndNormalWithRay m r maxToi solid = some inter ↔
        ∃ i, i < g.colliders.length ∧
          (g.colliders.getD i default).toiAndNormalWithRay m r maxToi solid
            = some inter ∧
          ∀ j, j < i →
            (g.colliders.getD j default).toiAndNormalWithRay m r maxToi solid
              = none) ∧
    (sheetGeometry.toiAndNormalWithRay Iso.id pickRay 10 true = some ⟨3⟩ ∧
      (sheetGeometry.colliders.getD 1 default).toiAndNormalWithRay Iso.id
          pickRay 10 true = some ⟨2⟩ ∧
      (2 : ℚ) < 3) :=
  ⟨fun g m r maxToi solid =>
     raycastFirst_eq_none_iff m r maxToi solid g.colliders,
   fun g m r maxToi solid inter =>
     raycastFirst_eq_some_iff m r maxToi solid inter g.colliders,
   by decide!, by decide!, by decide!⟩

/-- C6: when the model name does not resolve, `push_entity` returns the
"Cannot find model" error and the collision index is exactly what it was —
no partial registration. -/
theorem c6_push_model_not_found_leaves_index_unchanged (τ : Trig) (w : World)
    (inp : EntityInput) (t : Transform) (mid : String)
    (htr : inp.transform = some t) (hmi : inp.modelIdent = some mid)
    (hm : lookupStr w.models mid = none) :
    (w.pushEntity τ inp).1 = Except.error WErr.cannotFindModel ∧
    ((w.pushEntity τ inp).2).collisionWorld = w.collisionWorld := by
  simp [World.pushEntity, htr, hmi, hm]

/-- Witness for C6 at a concrete world with an empty model registry. -/
theorem c6_witness :
    (ghostInput.transform = some (Transform.new demoTrig) ∧
     ghostInput.modelIdent = some "ghost" ∧
     lookupStr emptyWorld.models "ghost" = none) ∧
    ((emptyWorld.pushEntity demoTrig ghostInput).1
        = Except.error WErr.cannotFindModel ∧
     ((emptyWorld.pushEntity demoTrig ghostInput).2).collisionWorld
        = emptyWorld.collisionWorld) :=
  ⟨⟨rfl, rfl, rfl⟩,
   c6_push_model_not_found_leaves_index_unchanged demoTrig emptyWorld
     ghostInput (Transform.new demoTrig) "ghost" rfl rfl rfl⟩

/-- C10: a failed `push_entity` (model not found) does not roll the entity
back: it stays in the store with the supplied components and the empty
collider group that was attached before the lookup failed. -/
theorem c10_push_error_entity_not_rolled_back (τ : Trig) (w : World)
    (inp : EntityInput) (t : Transform) (mid : String)
    (htr : inp.transform = some t) (hmi : inp.modelIdent = some mid)
    (hm : lookupStr w.models mid = none)
    (hfresh : findEntity w.entities w.nextEntity = none) :
    (w.pushEntity τ inp).1 = Except.error WErr.cannotFindModel ∧
    ((w.pushEntity τ inp).2).entities =
      w.entities ++ [(w.nextEntity,
        ⟨some t, some mid, inp.materialIdent, inp.collisionGroups, some []⟩)] ∧
    findEntity ((w.pushEntity τ inp).2).entities w.nextEntity =
      some ⟨some t, some mid, inp.materialIdent, inp.collisionGroups, some []⟩ := by
  have h2 : ((w.pushEntity τ inp).2).entities =
      w.entities ++ [(w.nextEntity,
        ⟨some t, some mid, inp.materialIdent, inp.collisionGroups, some []⟩)] := by
    simp only [World.pushEntity, htr, hmi, hm]
  refine ⟨?_, h2, ?_⟩
  · simp only [World.pushEntity, htr, hmi, hm]
  · rw [h2]
    exact findEntity_append_fresh _ w.entities w.nextEntity hfresh

/-- Witness for C10 at a concrete world with an empty model registry. -/
theorem c10_witness :
    (ghostInput.transform = some (Transform.new demoTrig) ∧
     ghostInput.modelIdent = some "ghost" ∧
     lookupStr emptyWorld.models "ghost" = none ∧
     findEntity emptyWorld.entities emptyWorld.nextEntity = none) ∧
    ((emptyWorld.pushEntity demoTrig ghostInput).1
        = Except.error WErr.cannotFindModel ∧
     ((emptyWorld.pushEntity demoTrig ghostInput).2).entities =
       emptyWorld.entities ++ [(emptyWorld.nextEntity,
         ⟨some (Transform.new demoTrig), some "ghost", ghostInput.materialIdent,
          ghostInput.collisionGroups, some []⟩)] ∧
     findEntity ((emptyWorld.pushEntity demoTrig ghostInput).2).entities
         emptyWorld.nextEntity =
       some ⟨some (Transform.new demoTrig), some "ghost",
         ghostInput.materialIdent, ghostInput.collisionGroups, some []⟩) :=
  ⟨⟨rfl, rfl, rfl, rfl⟩,
   c10_push_error_entity_not_rolled_back demoTrig emptyWorld ghostInput
     (Transform.new demoTrig) "ghost" rfl rfl rfl rfl⟩

/-- C3: a successful `push_entity` on a component bundle whose model resolves
to a model with `N` submesh colliders leaves the new entity's collider group
holding exactly `N` handles — the `N` consecutive slab indices starting at
the previous entry count, in submesh order — and grows the collision index
by exactly `N` entries, the `i`-th of which is posed at the entity's
isometry and shaped as submesh collider `i` scaled by the entity's scale. -/
theorem c3_push_registers_one_entry_per_submesh (τ : Trig) (w : World)
    (inp : EntityInput) (t : Transform) (mid : String) (model : Model)
    (htr : inp.transform = some t) (hmi : inp.modelIdent = some mid)
    (hm : lookupStr w.models mid = some model)
    (hfresh : findEntity w.entities w.nextEntity = none) :
    ∃ w',
      w.pushEntity τ inp = (Except.ok w.nextEntity, w') ∧
      findEntity w'.entities w.nextEntity = some
        ⟨some t, some mid, inp.materialIdent, inp.collisionGroups,
         some ((List.range model.meshColliders.length).map
           fun i => w.collisionWorld.length + i)⟩ ∧
      ((List.range model.meshColliders.length).map
          fun i => w.collisionWorld.length + i).length
        = model.meshColliders.length ∧
      w'.collisionWorld.length
        = w.collisionWorld.length + model.meshColliders.length ∧
      ∀ i, i < model.meshColliders.length →
        w'.collisionWorld.getD (w.collisionWorld.length + i) default =
          registeredObject (t.isometry τ) t.scale
            (inp.collisionGroups.getD CollisionGroups.new) w.nextEntity
            (model.meshColliders.getD i default) := by
  simp only [World.pushEntity, htr, hmi, hm, addColliders_eq, List.nil_append]
  refine ⟨_, rfl, ?_, ?_, ?_, ?_⟩
  · exact findEntity_append_fresh _ w.entities w.nextEntity hfresh
  · simp
  · simp
  · intro i hi
    rw [getD_append_offset, getD_map_lt _ _ default _ i hi]

/-- Witness for C3: pushing the two-submesh sheet model into the demo world
registers two entries and records handles `[0, 1]`. -/
theorem c3_witness :
    (demoInput.transform = some (Transform.new demoTrig) ∧
     demoInput.modelIdent = some "sheets" ∧
     lookupStr demoWorld.models "sheets" = some sheetModel ∧
     findEntity demoWorld.entities demoWorld.nextEntity = none ∧
     sheetModel.meshColliders.length = 2) ∧
    (∃ w',
      demoWorld.pushEntity demoTrig demoInput
        = (Except.ok demoWorld.nextEntity, w') ∧
      findEntity w'.entities demoWorld.nextEntity = some
        ⟨some (Transform.new demoTrig), some "sheets", demoInput.materialIdent,
         demoInput.collisionGroups,
         some ((List.range sheetModel.meshColliders.length).map
           fun i => demoWorld.collisionWorld.length + i)⟩ ∧
      ((List.range sheetModel.meshColliders.length).map
          fun i => demoWorld.collisionWorld.length + i).length
        = sheetModel.meshColliders.length ∧
      w'.collisionWorld.length
        = demoWorld.collisionWorld.length + sheetModel.meshColliders.length ∧
      ∀ i, i < sheetModel.meshColliders.length →
        w'.collisionWorld.getD (demoWorld.collisionWorld.length + i) default =
          registeredObject ((Transform.new demoTrig).isometry demoTrig)
            (Transform.new demoTrig).scale
            (demoInput.collisionGroups.getD CollisionGroups.new)
            demoWorld.nextEntity
            (sheetModel.meshColliders.getD i default)) :=
  ⟨⟨rfl, rfl, by decide!, rfl, by decide!⟩,
   c3_push_registers_one_entry_per_submesh demoTrig demoWorld demoInput
     (Transform.new demoTrig) "sheets" sheetModel rfl rfl (by decide!) rfl⟩

/-- C5: for an existing entity with transform, resolvable model and collider
group (with valid, distinct handles — the shape every reachable world has),
`update_entity_world_transform` succeeds and leaves, for the handle at
position `i` of the group, the collision-index entry re-posed at the
transform's current isometry and re-shaped as submesh collider `i` scaled
componentwise by the transform's current scale, with everything else about
the entry (and the entity store) unchanged. -/
theorem c5_update_syncs_pose_and_shape (τ : Trig) (w : World) (e : Nat)
    (c : Components) (t : Transform) (mid : String) (model : Model)
    (hs : List Nat)
    (hf : findEntity w.entities e = some c) (htr : c.transform = some t)
    (hmi : c.modelIdent = some mid) (hm : lookupStr w.models mid = some model)
    (hcg : c.colliderGroup = some hs) (hnd : hs.Nodup)
    (hbound : ∀ x ∈ hs, x < w.collisionWorld.length) :
    ∃ w',
      w.updateEntityWorldTransform τ e = (Except.ok (), w') ∧
      w'.entities = w.entities ∧
      w'.collisionWorld.length = w.collisionWorld.length ∧
      ∀ (j : Nat) (hj : j < hs.length),
        w'.collisionWorld.getD (hs.get ⟨j, hj⟩) default =
          { w.collisionWorld.getD (hs.get ⟨j, hj⟩) default with
            pose := t.isometry τ,
            shape := (model.meshColliders.getD j default).scaled t.scale } := by
  simp only [World.updateEntityWorldTransform, hf, htr, hmi, hm, hcg]
  refine ⟨_, rfl, rfl, setColliders_length _ _ _ hs 0 _, ?_⟩
  intro j hj
  have hgd := setColliders_getD (t.isometry τ) t.scale model default hs 0
    w.collisionWorld hnd hbound j hj
  rwa [Nat.zero_add] at hgd

/-- Witness for C5 on the pushed demo world: updating entity 0 re-poses and
re-shapes both registered entries. -/
theorem c5_witness :
    (findEntity demoWorldPushed.entities 0 = some demoPushedComponents ∧
     demoPushedComponents.transform = some (Transform.new demoTrig) ∧
     demoPushedComponents.modelIdent = some "sheets" ∧
     lookupStr demoWorldPushed.models "sheets" = some sheetModel ∧
     demoPushedComponents.colliderGroup = some [0, 1] ∧
     ([0, 1] : List Nat).Nodup ∧
     (∀ x ∈ ([0, 1] : List Nat), x < demoWorldPushed.collisionWorld.length)) ∧
    (∃ w',
      demoWorldPushed.updateEntityWorldTransform demoTrig 0
        = (Except.ok (), w') ∧
      w'.entities = demoWorldPushed.entities ∧
      w'.collisionWorld.length = demoWorldPushed.collisionWorld.length ∧
      ∀ (j : Nat) (hj : j < ([0, 1] : List Nat).length),
        w'.collisionWorld.getD (([0, 1] : List Nat).get ⟨j, hj⟩) default =
          { demoWorldPushed.collisionWorld.getD
              (([0, 1] : List Nat).get ⟨j, hj⟩) default with
            pose := (Transform.new demoTrig).isometry demoTrig,
            shape := (sheetModel.meshColliders.getD j default).scaled
              (Transform.new demoTrig).scale }) :=
  ⟨⟨by decide!, rfl, rfl, by decide!, rfl, by decide!, by decide!⟩,
   c5_update_syncs_pose_and_shape demoTrig demoWorldPushed 0
     demoPushedComponents (Transform.new demoTrig) "sheets" sheetModel [0, 1]
     (by decide!) rfl rfl (by decide!) rfl (by decide!) (by decide!)⟩

/-- C4: whenever some entity references a model or material name that does
not resolve, `render` returns a single aggregated error — naming every
missing model name and every missing material name across all entities —
and issues no draw call (the draw log of the failed pass is empty and the
world is untouched). -/
theorem c4_render_error_aggregates_all_missing_names (τ : Trig) (w : World)
    (h : w.missingModels ≠ [] ∨ w.missingMaterials ≠ []) :
    ∃ err : WErr,
      World.render τ w = (Except.error err, [], w) ∧
      err.missingModelNames = w.missingModels ∧
      err.missingMaterialNames = w.missingMaterials ∧
      (∀ (e : Nat) (c : Components) (mid : String), (e, c) ∈ w.entities →
        c.modelIdent = some mid → lookupStr w.models mid = none →
        mid ∈ err.missingModelNames) ∧
      (∀ (e : Nat) (c : Components) (mid : String), (e, c) ∈ w.entities →
        c.materialIdent = some mid → lookupStr w.materials mid = none →
        mid ∈ err.missingMaterialNames) := by
  cases hm : w.missingModels.isEmpty with
  | true =>
    have hmnil : w.missingModels = [] := List.isEmpty_iff.mp hm
    cases hmat : w.missingMaterials.isEmpty with
    | true =>
      have hmatnil : w.missingMaterials = [] := List.isEmpty_iff.mp hmat
      rcases h with h | h
      · exact absurd hmnil h
      · exact absurd hmatnil h
    | false =>
      refine ⟨WErr.materialsNotFound w.missingMaterials, ?_, hmnil.symm, rfl,
        ?_, ?_⟩
      · rw [World.render]
        simp only [World.ensureModelsAndMaterials, hm, hmat]
      · intro e c mid hmem hmid hlook
        have hx := mem_missingModels w e c mid hmem hmid hlook
        rw [hmnil] at hx
        cases hx
      · intro e c mid hmem hmid hlook
        exact mem_missingMaterials w e c mid hmem hmid hlook
  | false =>
    cases hmat : w.missingMaterials.isEmpty with
    | true =>
      have hmatnil : w.missingMaterials = [] := List.isEmpty_iff.mp hmat
      refine ⟨WErr.modelsNotFound w.missingModels, ?_, rfl, hmatnil.symm,
        ?_, ?_⟩
      · rw [World.render]
        simp only [World.ensureModelsAndMaterials, hm, hmat]
      · intro e c mid hmem hmid hlook
        exact mem_missingModels w e c mid hmem hmid hlook
      · intro e c mid hmem hmid hlook
        have hx := mem_missingMaterials w e c mid hmem hmid hlook
        rw [hmatnil] at hx
        cases hx
    | false =>
      refine ⟨WErr.modelsAndMaterialsNotFound w.missingModels
        w.missingMaterials, ?_, rfl, rfl, ?_, ?_⟩
      · rw [World.render]
        simp only [World.ensureModelsAndMaterials, hm, hmat]
      · intro e c mid hmem hmid hlook
        exact mem_missingModels w e c mid hmem hmid hlook
      · intro e c mid hmem hmid hlook
        exact mem_missingMaterials w e c mid hmem hmid hlook

/-- Witness for C4 on a world holding one entity with an unresolvable model
name. -/
theorem c4_witness :
    (ghostWorld.missingModels ≠ [] ∨ ghostWorld.missingMaterials ≠ []) ∧
    (∃ err : WErr,
      World.render demoTrig ghostWorld = (Except.error err, [], ghostWorld) ∧
      err.missingModelNames = ghostWorld.missingModels ∧
      err.missingMaterialNames = ghostWorld.missingMaterials ∧
      (∀ (e : Nat) (c : Components) (mid : String),
        (e, c) ∈ ghostWorld.entities → c.modelIdent = some mid →
        lookupStr ghostWorld.models mid = none →
        mid ∈ err.missingModelNames) ∧
      (∀ (e : Nat) (c : Components) (mid : String),
        (e, c) ∈ ghostWorld.entities → c.materialIdent = some mid →
        lookupStr ghostWorld.materials mid = none →
        mid ∈ err.missingMaterialNames)) :=
  ⟨Or.inl (by decide!),
   c4_render_error_aggregates_all_missing_names demoTrig ghostWorld
     (Or.inl (by decide!))⟩

/-- C7: `scaled` returns a fresh geometry (the receiver, a pure value here
as in the source, is untouched) whose colliders are the originals with
every vertex multiplied componentwise by the scale and whose BVT is rebuilt
from the scaled colliders' AABBs; and for every positive scale the scaled
collider's AABB is the original's scaled exactly componentwise, so its
extents are exactly `k` times the original's along each axis. -/
theorem c7_scaled_rebuilds_colliders_and_bvt (g : Geometry) (k : Vec3)
    (hx : 0 < k.x) (hy : 0 < k.y) (hz : 0 < k.z) :
    (g.scaled k).colliders = g.colliders.map (fun c => c.scaled k) ∧
    (g.scaled k).meshes = g.meshes ∧
    (g.scaled k).bvt = BVT.newBalanced
      (((g.colliders.map fun c => c.scaled k).enum).map
        fun p => (p.1, p.2.aabb)) ∧
    ∀ c ∈ g.colliders, c.indices ≠ [] →
      (c.scaled k).aabb = ⟨Vec3.cmul k c.aabb.mins, Vec3.cmul k c.aabb.maxs⟩ ∧
      (c.scaled k).aabb.extents = Vec3.cmul k c.aabb.extents := by
  refine ⟨rfl, rfl, rfl, ?_⟩
  intro c hc hne
  have h1 := scaled_aabb k (le_of_lt hx) (le_of_lt hy) (le_of_lt hz) c hne
  refine ⟨h1, ?_⟩
  simp [h1, Aabb.extents, Vec3.sub, Vec3.cmul, mul_sub]

/-- Witness for C7: the unit-cube geometry scaled by `(2, 3, 1/2)`. -/
theorem c7_witness :
    (0 < demoScale.x ∧ 0 < demoScale.y ∧ 0 < demoScale.z ∧
     (cubeGeometry.colliders.getD 0 default).aabb
        = ⟨⟨0, 0, 0⟩, ⟨1, 1, 1⟩⟩ ∧
     ((cubeGeometry.colliders.getD 0 default).scaled demoScale).aabb.extents
        = ⟨2, 3, 1 / 2⟩) ∧
    ((cubeGeometry.scaled demoScale).colliders
        = cubeGeometry.colliders.map (fun c => c.scaled demoScale) ∧
     (cubeGeometry.scaled demoScale).meshes = cubeGeometry.meshes ∧
     (cubeGeometry.scaled demoScale).bvt = BVT.newBalanced
       (((cubeGeometry.colliders.map fun c => c.scaled demoScale).enum).map
         fun p => (p.1, p.2.aabb)) ∧
     ∀ c ∈ cubeGeometry.colliders, c.indices ≠ [] →
       (c.scaled demoScale).aabb
          = ⟨Vec3.cmul demoScale c.aabb.mins,
             Vec3.cmul demoScale c.aabb.maxs⟩ ∧
       (c.scaled demoScale).aabb.extents
          = Vec3.cmul demoScale c.aabb.extents) :=
  ⟨⟨by decide!, by decide!, by decide!, by decide!, by decide!⟩,
   c7_scaled_rebuilds_colliders_and_bvt cubeGeometry demoScale (by decide!)
     (by decide!) (by decide!)⟩

/-- C8: each transform setter marks the dirty flag and leaves the GPU
buffer untouched; `buffer()` uploads the instance matrix exactly when the
flag is set at the call (and clears it); hence any burst of setter calls
leads to exactly one upload on the next `buffer()` call — at most one write
however many setters ran. -/
theorem c8_transform_setters_dirty_lazy_buffer (τ : Trig) (t : Transform)
    (p r s : Vec3) (ops : List SetterOp) :
    ((t.setPosition p).dirty = true ∧ (t.setPosition p).buffer = t.buffer ∧
      (t.setPosition p).translation = p) ∧
    ((t.setRotation r).dirty = true ∧ (t.setRotation r).buffer = t.buffer ∧
      (t.setRotation r).rotation = r) ∧
    ((t.setScale s).dirty = true ∧ (t.setScale s).buffer = t.buffer ∧
      (t.setScale s).scale = s) ∧
    ((t.flushBuffer τ).dirty = false ∧
      (t.flushBuffer τ).buffer
        = t.buffer ++ (if t.dirty then [t.instanceData τ] else [])) ∧
    ((applySetters t ops).flushBuffer τ).buffer.length
      = t.buffer.length +
        (if ops.isEmpty then (if t.dirty then 1 else 0) else 1) := by
  refine ⟨⟨rfl, rfl, rfl⟩, ⟨rfl, rfl, rfl⟩, ⟨rfl, rfl, rfl⟩, ?_, ?_⟩
  · by_cases hd : t.dirty <;> simp [Transform.flushBuffer, hd]
  · have hbuf := applySetters_buffer ops t
    have hdirty := applySetters_dirty ops t
    by_cases hops : ops.isEmpty <;> by_cases hd : t.dirty <;>
      simp [Transform.flushBuffer, hdirty, hbuf, hops, hd]

/-- C9: under every sequence of world operations, the collision index only
grows — no entry is ever removed (there is no removal path), so the entry
count never decreases and every handle stays valid. -/
theorem c9_collision_entries_never_removed (τ : Trig) (w : World)
    (ops : List WOp) :
    w.collisionWorld.length ≤ ((w.run τ ops)).collisionWorld.length :=
  run_cw_le τ ops w

end Nodas
